import Mathlib

/-!
Verification of the churn-customers-telecom EDA helpers
(`src/data_prepare.py` and `src/vizualization.py`).

Modelling conventions of this shallow embedding:
* a column name is its list of Unicode code points (`List Nat`);
* a dataframe of the visualization module is an association list from a
  column name to the list of that column's cells, and the target column is
  paired with a categorical column positionally (a rectangular frame);
* machine floats are modelled as rationals; numpy's `round` (half to even)
  is made explicit as `roundHE`;
* pandas raises nothing when an empty integer series is divided by zero
  (the element-wise division over an empty `value_counts` series performs no
  division), so the percentage pipeline is total; the places where the
  Python code can raise (a missing column, numpy's broadcast failure in
  `ax.bar`, an out-of-range `.iloc` in the labelling loop) are the `error`
  cases of `Except`.
-/

namespace ChurnEDA

/-! ## data_prepare.snake_columns_rename

The source chains five pandas string operations over every column name:
`replace(r"([a-z0-9])([A-Z])", r"\1 \2")`, `replace(" ", "_")`, `lower()`,
`replace(r"_+", "_")`, `strip("_")`.  The regex classes are ASCII, and only
the literal space (code 32) is replaced by an underscore (code 95). -/

/-- Code point of a lowercase ASCII letter or an ASCII digit, the class
`[a-z0-9]` of the camel-boundary regex. -/
def isLowerDigitC (c : Nat) : Bool := decide ((97 ≤ c ∧ c ≤ 122) ∨ (48 ≤ c ∧ c ≤ 57))

/-- Code point of an uppercase ASCII letter, the class `[A-Z]`. -/
def isUpperC (c : Nat) : Bool := decide (65 ≤ c ∧ c ≤ 90)

/-- `.str.replace(r"([a-z0-9])([A-Z])", r"\1 \2", regex=True)`: left-to-right
scan inserting a space between a lowercase/digit code and a following
uppercase code; a match consumes both characters (an uppercase code can never
open a match, so this agrees with `re.sub`). -/
def camelSep : List Nat → List Nat
  | [] => []
  | [c] => [c]
  | a :: b :: rest =>
    if isLowerDigitC a && isUpperC b then a :: 32 :: b :: camelSep rest
    else a :: camelSep (b :: rest)

/-- `.str.replace(" ", "_")` on one code point. -/
def spaceToUnder (c : Nat) : Nat := if c = 32 then 95 else c

/-- `.str.lower()` on one code point (ASCII range, which is all the regex
classes of the source touch). -/
def toLowerC (c : Nat) : Nat := if isUpperC c then c + 32 else c

/-- `.str.replace(r"_+", "_", regex=True)`: collapse every run of
underscores to a single underscore. -/
def collapseUnder : List Nat → List Nat
  | [] => []
  | [c] => [c]
  | a :: b :: rest =>
    if a == 95 && b == 95 then collapseUnder (b :: rest)
    else a :: collapseUnder (b :: rest)

/-- Drop leading underscores (one side of `.str.strip("_")`). -/
def dropLeadUnder (l : List Nat) : List Nat := l.dropWhile (fun c => c == 95)

/-- `.str.strip("_")`: drop leading and trailing underscores. -/
def stripUnder (l : List Nat) : List Nat :=
  (dropLeadUnder ((dropLeadUnder l).reverse)).reverse

/-- The whole normalizer applied to one column name. -/
def snakeName (s : List Nat) : List Nat :=
  stripUnder (collapseUnder (((camelSep s).map spaceToUnder).map toLowerC))

/-- `snake_columns_rename`: rewrite every column name of the frame. -/
def snake_columns_rename (columns : List (List Nat)) : List (List Nat) :=
  columns.map snakeName

/-- Code points of a Lean string literal, to state concrete cases readably. -/
def strCodes (s : String) : List Nat := s.data.map Char.toNat

/-- Whitespace in Python's sense (`\s` over ASCII): space, tab, newline,
carriage return, vertical tab, form feed. -/
def isPySpace (c : Nat) : Bool := decide (c = 32 ∨ c = 9 ∨ c = 10 ∨ c = 13 ∨ c = 11 ∨ c = 12)

/-- No two adjacent underscores anywhere in the list. -/
def NoDoubleUnder (l : List Nat) : Prop :=
  l.Chain' (fun a b => ¬(a = 95 ∧ b = 95))

/-! ## vizualization: data model -/

/-- A dataframe cell: the frame at hand mixes an integer target column with
string-valued categorical columns. -/
inductive Cell where
  | i : Int → Cell
  | s : String → Cell
deriving DecidableEq

/-- `PlotCfg`, the display configuration dataclass, generic in the cell type
so the churn value can be compared with the target column's cells. -/
structure PlotCfg (V : Type) where
  target_col : String
  churn_value : V
  nan_label : String
  percent_decimals : Nat
deriving DecidableEq

/-- The Python defaults: `'target'`, `1`, `'Nan/Пусто'`, `1`. -/
def cfgDefault : PlotCfg Cell := ⟨"target", Cell.i 1, "Nan/Пусто", 1⟩

/-- numpy's `round` to an integer: round half to even. -/
def roundHE (x : ℚ) : ℤ :=
  if x - ⌊x⌋ < 1 / 2 then ⌊x⌋
  else if 1 / 2 < x - ⌊x⌋ then ⌊x⌋ + 1
  else if ⌊x⌋ % 2 = 0 then ⌊x⌋ else ⌊x⌋ + 1

/-- `Series.round(d)` on one value: round half to even at `d` decimals. -/
def roundTo (d : Nat) (x : ℚ) : ℚ := (roundHE (x * 10 ^ d) : ℚ) / 10 ^ d

variable {V : Type} [DecidableEq V]

/-- The distinct values of a column in first-encounter order
(`Series.unique`, and the key order `value_counts` groups by). -/
def firstUniques : List V → List V
  | [] => []
  | x :: xs => x :: (firstUniques xs).filter (fun y => decide (y ≠ x))

/-- Each distinct value with its number of occurrences. -/
def tallyCounts (xs : List V) : List (V × Nat) :=
  (firstUniques xs).map (fun v => (v, xs.count v))

/-- Insert into a list sorted by descending count, after entries of equal
count (a stable descending sort step). -/
def insertByCount (p : V × Nat) : List (V × Nat) → List (V × Nat)
  | [] => [p]
  | q :: rest => if q.2 ≤ p.2 then p :: q :: rest else q :: insertByCount p rest

/-- Stable sort by descending count. -/
def sortCountDesc : List (V × Nat) → List (V × Nat)
  | [] => []
  | p :: rest => insertByCount p (sortCountDesc rest)

/-- `Series.value_counts()`: distinct values with counts, most frequent
first. -/
def valueCounts (xs : List V) : List (V × Nat) := sortCountDesc (tallyCounts xs)

/-- `(counts / total * 100).round(d)` element-wise over a counts series.
An empty series stays empty whatever `total` is: pandas performs no division
then and raises nothing. -/
def pctSeries (counts : List (V × Nat)) (total : Nat) (d : Nat) : List (V × ℚ) :=
  counts.map (fun p => (p.1, roundTo d ((p.2 : ℚ) / total * 100)))

/-- A cohort's value-frequency percentages, the cohort's own size as
denominator: `(cohort[column].value_counts() / len(cohort) * 100).round(d)`. -/
def cohortPct (xs : List V) (d : Nat) : List (V × ℚ) :=
  pctSeries (valueCounts xs) xs.length d

/-! ## vizualization.category_graph -/

/-- What one grid cell of `category_graph` renders. -/
inductive ChartK (V : Type) where
  | pie (labels : List V) (sizes : List Nat) (decimals : Nat)
  | bar (labels : List V) (heights : List Nat) (pcts : List ℚ) (ymax : ℚ)
deriving DecidableEq

def chartIsPie : ChartK V → Bool
  | ChartK.pie _ _ _ => true
  | ChartK.bar _ _ _ _ => false

def chartIsBar : ChartK V → Bool
  | ChartK.pie _ _ _ => false
  | ChartK.bar _ _ _ _ => true

/-- `data[column].unique()`. -/
def uniqueVals (xs : List V) : List V := firstUniques xs

/-- The per-column body of `category_graph`: a pie chart when the column has
at most 2 distinct values, else a bar chart with a y-limit of 1.2 times the
largest count; percentages use the frame's row count as denominator. -/
def chartFor (xs : List V) (nrow : Nat) (d : Nat) : ChartK V :=
  let values := valueCounts xs
  let percentages := values.map (fun p => roundTo d ((p.2 : ℚ) / nrow * 100))
  if (uniqueVals xs).length ≤ 2 then
    ChartK.pie (values.map Prod.fst) (values.map Prod.snd) d
  else
    ChartK.bar (values.map Prod.fst) (values.map Prod.snd) percentages
      (((values.map Prod.snd).foldr max 0 : Nat) * 12 / 10 : ℚ)

/-- Column lookup, `data[column]`: `none` models the `KeyError`. -/
def colFor (df : List (String × List V)) (c : String) : Option (List V) :=
  (df.find? (fun p => p.1 == c)).map Prod.snd

/-- `len(data)`: the row count of the (rectangular) frame. -/
def dfLen (df : List (String × List V)) : Nat :=
  match df with
  | [] => 0
  | col :: _ => col.2.length

/-- A Python `for` loop whose body can raise: the first error aborts. -/
def mapExcept (f : α → Except String β) : List α → Except String (List β)
  | [] => Except.ok []
  | a :: rest =>
    match f a with
    | Except.error e => Except.error e
    | Except.ok b =>
      match mapExcept f rest with
      | Except.error e => Except.error e
      | Except.ok bs => Except.ok (b :: bs)

/-- The grid `category_graph` lays out: the row count passed to
`plt.subplots`, each chart with its `(row, col)` cell, and the cell switched
off when the column count is odd. -/
structure CategoryGrid (V : Type) where
  nrows : Nat
  cells : List ((Nat × Nat) × ChartK V)
  hiddenCell : Option (Nat × Nat)
deriving DecidableEq

/-- `category_graph(data, columns, cfg)`. -/
def category_graph (df : List (String × List V)) (columns : List String)
    (cfg : PlotCfg V) : Except String (CategoryGrid V) :=
  let n := columns.length
  let nrows := (n + 1) / 2
  match mapExcept (fun c =>
      match colFor df c with
      | none => Except.error "KeyError"
      | some xs => Except.ok (chartFor xs (dfLen df) cfg.percent_decimals)) columns with
  | Except.error e => Except.error e
  | Except.ok charts =>
    Except.ok ⟨nrows,
      charts.enum.map (fun p => ((p.1 / 2, p.1 % 2), p.2)),
      if n % 2 ≠ 0 then some (nrows - 1, 1) else none⟩

/-! ## vizualization.numeric_graph -/

/-- What `numeric_graph` renders per column: a 30-bin histogram of the
column and a box plot of the same values. -/
structure NumCharts (V : Type) where
  histValues : List V
  histBins : Nat
  boxValues : List V
deriving DecidableEq

/-- `numeric_graph(data, num_cols, cfg)`; its body never reads `cfg`. -/
def numeric_graph (df : List (String × List V)) (num_cols : List String)
    (cfg : PlotCfg V) : Except String (List (NumCharts V)) :=
  mapExcept (fun c =>
    match colFor df c with
    | none => Except.error "KeyError"
    | some xs => Except.ok ⟨xs, 30, xs⟩) num_cols

/-! ## vizualization.category_graph_compare -/

/-- `data.query(f"target == @cfg.churn_value")[column]` for one column,
rows given as (target value, column value) pairs. -/
def churnedValsOf (rows : List (V × V)) (cfg : PlotCfg V) : List V :=
  (rows.filter (fun r => decide (r.1 = cfg.churn_value))).map Prod.snd

/-- `data.query(f"target != @cfg.churn_value")[column]` for one column. -/
def retainedValsOf (rows : List (V × V)) (cfg : PlotCfg V) : List V :=
  (rows.filter (fun r => decide (¬r.1 = cfg.churn_value))).map Prod.snd

/-- What one `category_graph_compare` figure renders: the tick labels (set
from the churned series index), the two bar-height sequences, and how many
iterations the text-labelling loop runs (`zip(bars1, bars2)`). -/
structure ComparePlot (V : Type) where
  xticklabels : List V
  bars1Heights : List ℚ
  bars2Heights : List ℚ
  labelCount : Nat
deriving DecidableEq

/-- numpy broadcast of two 1-d shapes, as `ax.bar` applies to its `x` and
`height` arguments: `none` is the `ValueError`. -/
def broadcastLen (n m : Nat) : Option Nat :=
  if n = m then some n else if n = 1 then some m else if m = 1 then some n else none

/-- Broadcast a 1-d value list to a target length (only called on
compatible shapes). -/
def broadcastTo (l : List ℚ) (len : Nat) : List ℚ :=
  if l.length = len then l
  else
    match l with
    | [x] => List.replicate len x
    | _ => l

/-- The per-column body of `category_graph_compare`: percentage series for
both cohorts, `x_pos = arange(len(churned_pct))`, the two `ax.bar` calls
(numpy broadcast can fail), and the labelling loop whose `.iloc[i]` can run
past the retained series. -/
def comparePlotCol (rows : List (V × V)) (cfg : PlotCfg V) :
    Except String (ComparePlot V) :=
  let churned := churnedValsOf rows cfg
  let retained := retainedValsOf rows cfg
  let churned_pct := cohortPct churned cfg.percent_decimals
  let retained_pct := cohortPct retained cfg.percent_decimals
  match broadcastLen churned_pct.length retained_pct.length with
  | none => Except.error "ValueError: shape mismatch"
  | some len2 =>
    let zipLen := min churned_pct.length len2
    if zipLen ≤ (valueCounts retained).length then
      Except.ok ⟨churned_pct.map Prod.fst, churned_pct.map Prod.snd,
        broadcastTo (retained_pct.map Prod.snd) len2, zipLen⟩
    else Except.error "IndexError"

/-- `category_graph_compare(data, cat_columns, cfg)`: split once on the
target column, then draw one figure per categorical column. -/
def category_graph_compare (df : List (String × List V)) (cat_columns : List String)
    (cfg : PlotCfg V) : Except String (List (ComparePlot V)) :=
  match colFor df cfg.target_col with
  | none => Except.error "UndefinedVariableError"
  | some tv =>
    mapExcept (fun c =>
      match colFor df c with
      | none => Except.error "KeyError"
      | some xs => comparePlotCol (tv.zip xs) cfg) cat_columns

/-! ## vizualization.numeric_graph_compare -/

/-- What `numeric_graph_compare` renders per column: the two cohorts'
values as overlaid density histograms. -/
structure CompareHist (V : Type) where
  churnedValues : List V
  retainedValues : List V
  density : Bool
deriving DecidableEq

/-- `numeric_graph_compare(data, num_cols, cfg)`. -/
def numeric_graph_compare (df : List (String × List V)) (num_cols : List String)
    (cfg : PlotCfg V) : Except String (List (CompareHist V)) :=
  match colFor df cfg.target_col with
  | none => Except.error "UndefinedVariableError"
  | some tv =>
    mapExcept (fun c =>
      match colFor df c with
      | none => Except.error "KeyError"
      | some xs =>
        Except.ok ⟨churnedValsOf (tv.zip xs) cfg, retainedValsOf (tv.zip xs) cfg, true⟩)
      num_cols

/-! ## Concrete frames for the claims' scenarios -/

/-- Frame of the C2 scenario: `target` [1,1,0,0,0], `plan` [A,A,B,B,B]. -/
def dfScenario : List (String × List Cell) :=
  [("target", [Cell.i 1, Cell.i 1, Cell.i 0, Cell.i 0, Cell.i 0]),
   ("plan", [Cell.s "A", Cell.s "A", Cell.s "B", Cell.s "B", Cell.s "B"])]

/-- The same frame, target paired with plan row by row. -/
def rowsScenario : List (Cell × Cell) :=
  [(Cell.i 1, Cell.s "A"), (Cell.i 1, Cell.s "A"), (Cell.i 0, Cell.s "B"),
   (Cell.i 0, Cell.s "B"), (Cell.i 0, Cell.s "B")]

/-- A frame whose churned cohort is empty (no target value equals 1). -/
def dfNoChurn : List (String × List Cell) :=
  [("target", [Cell.i 0]), ("plan", [Cell.s "A"])]

/-- Frame where the cohorts order the plan categories differently:
churned [A,A,B] sorts as A,B; retained [B,B,B,A] sorts as B,A. -/
def rowsMismatch : List (Cell × Cell) :=
  [(Cell.i 1, Cell.s "A"), (Cell.i 1, Cell.s "A"), (Cell.i 1, Cell.s "B"),
   (Cell.i 0, Cell.s "B"), (Cell.i 0, Cell.s "B"), (Cell.i 0, Cell.s "B"),
   (Cell.i 0, Cell.s "A")]

/-- The figure the mismatch scenario produces. -/
def plotMismatch : ComparePlot Cell :=
  ⟨[Cell.s "A", Cell.s "B"], [667 / 10, 333 / 10], [75, 25], 2⟩

/-- Rows for the C4 witness: churned plan [A,B,B], retained plan [C]. -/
def rowsTwoCohorts : List (Cell × Cell) :=
  [(Cell.i 1, Cell.s "A"), (Cell.i 1, Cell.s "B"), (Cell.i 1, Cell.s "B"),
   (Cell.i 0, Cell.s "C")]

/-- Rows for the C6 witness: churned empty, retained has two distinct values. -/
def rowsEmptyChurn : List (Cell × Cell) :=
  [(Cell.i 0, Cell.s "A"), (Cell.i 0, Cell.s "B")]

/-- Frame for the C8 witness: three one-row columns. -/
def dfGrid : List (String × List Cell) :=
  [("a", [Cell.i 0]), ("b", [Cell.i 0]), ("c", [Cell.i 0])]

/-- The grid it produces: 2 rows, 3 pies, last cell hidden. -/
def gridExample : CategoryGrid Cell :=
  ⟨2, [((0, 0), ChartK.pie [Cell.i 0] [1] 1), ((0, 1), ChartK.pie [Cell.i 0] [1] 1),
      ((1, 0), ChartK.pie [Cell.i 0] [1] 1)], some (1, 1)⟩

end ChurnEDA

deriving instance DecidableEq for Except

namespace ChurnEDA

variable {V : Type} [DecidableEq V]

/-! ## Lemmas: the snake_case normalizer -/

theorem isUpperC_toLowerC (c : Nat) : isUpperC (toLowerC c) = false := by
  unfold toLowerC
  split
  · next h =>
    simp only [isUpperC, decide_eq_true_eq] at h
    simp only [isUpperC, decide_eq_false_iff_not]
    omega
  · next h => simpa using h

theorem toLowerC_eq_space {c : Nat} (h : toLowerC c = 32) : c = 32 := by
  unfold toLowerC at h
  split at h
  · next hu => simp only [isUpperC, decide_eq_true_eq] at hu; omega
  · exact h

theorem spaceToUnder_ne_space (c : Nat) : spaceToUnder c ≠ 32 := by
  unfold spaceToUnder
  split
  · omega
  · next h => exact h

theorem mem_collapseUnder : ∀ (l : List Nat), ∀ c ∈ collapseUnder l, c ∈ l
  | [] => by simp [collapseUnder]
  | [a] => by simp [collapseUnder]
  | a :: b :: rest => by
    intro c hc
    simp only [collapseUnder] at hc
    split at hc
    · exact List.mem_cons_of_mem a (mem_collapseUnder (b :: rest) c hc)
    · rcases List.mem_cons.mp hc with rfl | hc
      · exact List.mem_cons_self _ _
      · exact List.mem_cons_of_mem a (mem_collapseUnder (b :: rest) c hc)

theorem mem_dropLeadUnder {c : Nat} {l : List Nat} (h : c ∈ dropLeadUnder l) : c ∈ l :=
  List.Sublist.mem h (List.dropWhile_sublist _)

theorem mem_stripUnder {c : Nat} {l : List Nat} (h : c ∈ stripUnder l) : c ∈ l := by
  unfold stripUnder at h
  rw [List.mem_reverse] at h
  have h1 := mem_dropLeadUnder h
  rw [List.mem_reverse] at h1
  exact mem_dropLeadUnder h1

theorem snakeName_no_upper (s : List Nat) : ∀ c ∈ snakeName s, isUpperC c = false := by
  intro c hc
  unfold snakeName at hc
  have h1 := mem_collapseUnder _ c (mem_stripUnder hc)
  rcases List.mem_map.mp h1 with ⟨d, _, rfl⟩
  exact isUpperC_toLowerC d

theorem snakeName_no_space (s : List Nat) : ∀ c ∈ snakeName s, c ≠ 32 := by
  intro c hc
  unfold snakeName at hc
  have h1 := mem_collapseUnder _ c (mem_stripUnder hc)
  rcases List.mem_map.mp h1 with ⟨d, hd, rfl⟩
  rcases List.mem_map.mp hd with ⟨e, _, rfl⟩
  intro h
  exact spaceToUnder_ne_space e (toLowerC_eq_space h)

theorem head?_collapseUnder : ∀ (b : Nat) (rest : List Nat),
    (collapseUnder (b :: rest)).head? = some b
  | _, [] => by simp [collapseUnder]
  | b, c :: rest => by
    simp only [collapseUnder]
    split
    · next h =>
      obtain ⟨hb, hc⟩ : b = 95 ∧ c = 95 := by simpa using h
      rw [head?_collapseUnder c rest, hb, hc]
    · simp

theorem noDoubleUnder_collapseUnder : ∀ (l : List Nat), NoDoubleUnder (collapseUnder l)
  | [] => by simp [collapseUnder, NoDoubleUnder]
  | [a] => by simp [collapseUnder, NoDoubleUnder]
  | a :: b :: rest => by
    simp only [collapseUnder]
    split
    · exact noDoubleUnder_collapseUnder (b :: rest)
    · next h =>
      refine List.chain'_cons'.mpr ⟨?_, noDoubleUnder_collapseUnder (b :: rest)⟩
      intro y hy
      rw [head?_collapseUnder b rest] at hy
      cases hy
      simp only [beq_iff_eq, Bool.and_eq_true, decide_eq_true_eq] at h
      tauto

theorem noDoubleUnder_dropLeadUnder {l : List Nat} (h : NoDoubleUnder l) :
    NoDoubleUnder (dropLeadUnder l) :=
  List.Chain'.suffix h ⟨_, List.takeWhile_append_dropWhile (fun c => c == 95) l⟩

theorem noDoubleUnder_reverse {l : List Nat} (h : NoDoubleUnder l) :
    NoDoubleUnder l.reverse := by
  unfold NoDoubleUnder at h ⊢
  rw [List.chain'_reverse]
  exact List.Chain'.imp (fun a b hab => by tauto) h

theorem noDoubleUnder_stripUnder {l : List Nat} (h : NoDoubleUnder l) :
    NoDoubleUnder (stripUnder l) :=
  noDoubleUnder_reverse (noDoubleUnder_dropLeadUnder (noDoubleUnder_reverse
    (noDoubleUnder_dropLeadUnder h)))

theorem snakeName_noDouble (s : List Nat) : NoDoubleUnder (snakeName s) :=
  noDoubleUnder_stripUnder (noDoubleUnder_collapseUnder _)

theorem head?_dropLeadUnder_ne (l : List Nat) : (dropLeadUnder l).head? ≠ some 95 := by
  intro h
  have h2 := List.head?_dropWhile_not (fun c => c == 95) l
  unfold dropLeadUnder at h
  rw [h] at h2
  simp at h2

theorem getLast?_suffix_of_ne_nil {l₁ l₂ : List Nat} (h : l₁ <:+ l₂) (hne : l₁ ≠ []) :
    l₁.getLast? = l₂.getLast? := by
  obtain ⟨t, rfl⟩ := h
  rw [List.getLast?_append]
  cases hl : l₁.getLast? with
  | none => exact absurd (List.getLast?_eq_none_iff.mp hl) hne
  | some a => rfl

theorem head?_stripUnder_ne (l : List Nat) : (stripUnder l).head? ≠ some 95 := by
  unfold stripUnder
  rw [List.head?_reverse]
  by_cases hnil : dropLeadUnder ((dropLeadUnder l).reverse) = []
  · rw [hnil]; simp
  · have hsuff : dropLeadUnder ((dropLeadUnder l).reverse) <:+ (dropLeadUnder l).reverse :=
      ⟨_, List.takeWhile_append_dropWhile (fun c => c == 95) (dropLeadUnder l).reverse⟩
    rw [getLast?_suffix_of_ne_nil hsuff hnil, List.getLast?_reverse]
    exact head?_dropLeadUnder_ne l

theorem getLast?_stripUnder_ne (l : List Nat) : (stripUnder l).getLast? ≠ some 95 := by
  unfold stripUnder
  rw [List.getLast?_reverse]
  exact head?_dropLeadUnder_ne _

theorem snakeName_head (s : List Nat) : (snakeName s).head? ≠ some 95 :=
  head?_stripUnder_ne _

theorem snakeName_last (s : List Nat) : (snakeName s).getLast? ≠ some 95 :=
  getLast?_stripUnder_ne _

theorem camelSep_of_no_upper : ∀ (l : List Nat), (∀ c ∈ l, isUpperC c = false) →
    camelSep l = l
  | [], _ => rfl
  | [_], _ => rfl
  | a :: b :: rest, h => by
    have hb : isUpperC b = false := h b (by simp)
    simp only [camelSep, hb, Bool.and_false, Bool.false_eq_true, if_false]
    rw [camelSep_of_no_upper (b :: rest) (fun c hc => h c (List.mem_cons_of_mem a hc))]

theorem map_id_of_mem {f : Nat → Nat} (l : List Nat) (h : ∀ c ∈ l, f c = c) :
    l.map f = l := by
  induction l with
  | nil => rfl
  | cons a t ih =>
    simp only [List.map_cons]
    rw [h a (by simp), ih (fun c hc => h c (List.mem_cons_of_mem a hc))]

theorem collapseUnder_of_noDouble : ∀ (l : List Nat), NoDoubleUnder l →
    collapseUnder l = l
  | [], _ => rfl
  | [_], _ => rfl
  | a :: b :: rest, h => by
    have h1 : ¬(a = 95 ∧ b = 95) := (List.chain'_cons.mp h).1
    simp only [collapseUnder]
    rw [if_neg (by simpa using h1)]
    rw [collapseUnder_of_noDouble (b :: rest) (List.chain'_cons.mp h).2]

theorem dropLeadUnder_of_head {l : List Nat} (h : l.head? ≠ some 95) :
    dropLeadUnder l = l := by
  cases l with
  | nil => rfl
  | cons a t =>
    unfold dropLeadUnder
    rw [List.dropWhile_cons, if_neg]
    simp only [List.head?_cons, ne_eq, Option.some.injEq] at h
    simpa using h

theorem stripUnder_of_ends {l : List Nat} (h1 : l.head? ≠ some 95)
    (h2 : l.getLast? ≠ some 95) : stripUnder l = l := by
  unfold stripUnder
  rw [dropLeadUnder_of_head h1,
    dropLeadUnder_of_head (by rw [List.head?_reverse]; exact h2),
    List.reverse_reverse]

theorem snakeName_of_normal (l : List Nat) (hu : ∀ c ∈ l, isUpperC c = false)
    (hs : ∀ c ∈ l, c ≠ 32) (hd : NoDoubleUnder l)
    (hh : l.head? ≠ some 95) (hl : l.getLast? ≠ some 95) : snakeName l = l := by
  unfold snakeName
  rw [camelSep_of_no_upper l hu,
    map_id_of_mem l (fun c hc => by unfold spaceToUnder; rw [if_neg (hs c hc)]),
    map_id_of_mem l (fun c hc => by unfold toLowerC; rw [if_neg (by simp [hu c hc])]),
    collapseUnder_of_noDouble l hd, stripUnder_of_ends hh hl]

theorem snakeName_idem (s : List Nat) : snakeName (snakeName s) = snakeName s :=
  snakeName_of_normal _ (snakeName_no_upper s) (snakeName_no_space s)
    (snakeName_noDouble s) (snakeName_head s) (snakeName_last s)

/-! ## Lemmas: value_counts and rounding -/

theorem mem_firstUniques (v : V) (xs : List V) : v ∈ firstUniques xs ↔ v ∈ xs := by
  induction xs with
  | nil => simp [firstUniques]
  | cons x t ih =>
    simp only [firstUniques, List.mem_cons, List.mem_filter, decide_eq_true_eq]
    constructor
    · rintro (rfl | ⟨h1, _⟩)
      · exact Or.inl rfl
      · exact Or.inr (ih.mp h1)
    · rintro (rfl | h)
      · exact Or.inl rfl
      · rcases eq_or_ne v x with rfl | hvx
        · exact Or.inl rfl
        · exact Or.inr ⟨ih.mpr h, hvx⟩

theorem nodup_firstUniques (xs : List V) : (firstUniques xs).Nodup := by
  induction xs with
  | nil => exact List.nodup_nil
  | cons x t ih =>
    refine List.Nodup.cons ?_ (List.Nodup.filter _ ih)
    intro hmem
    rcases List.mem_filter.mp hmem with ⟨_, hne⟩
    simp at hne

theorem perm_insertByCount (p : V × Nat) : ∀ (l : List (V × Nat)),
    List.Perm (insertByCount p l) (p :: l)
  | [] => List.Perm.refl _
  | q :: rest => by
    simp only [insertByCount]
    split
    · exact List.Perm.refl _
    · exact ((perm_insertByCount p rest).cons q).trans (List.Perm.swap p q rest)

theorem perm_sortCountDesc : ∀ (l : List (V × Nat)), List.Perm (sortCountDesc l) l
  | [] => List.Perm.refl _
  | p :: rest => (perm_insertByCount p _).trans ((perm_sortCountDesc rest).cons p)

theorem perm_valueCounts (xs : List V) : List.Perm (valueCounts xs) (tallyCounts xs) :=
  perm_sortCountDesc _

theorem count_of_mem_valueCounts {v : V} {k : Nat} {xs : List V}
    (h : (v, k) ∈ valueCounts xs) : k = xs.count v := by
  have h3 : (v, k) ∈ tallyCounts xs := (perm_valueCounts xs).mem_iff.mp h
  rcases List.mem_map.mp h3 with ⟨u, _, huv⟩
  simp only [Prod.mk.injEq] at huv
  rw [← huv.2, ← huv.1]

theorem sum_counts_valueCounts (xs : List V) :
    ((valueCounts xs).map Prod.snd).sum = xs.length := by
  rw [((perm_valueCounts xs).map Prod.snd).sum_eq]
  unfold tallyCounts
  rw [List.map_map]
  have hfu : List.Perm (firstUniques xs) xs.dedup :=
    List.perm_of_nodup_nodup_toFinset_eq (nodup_firstUniques xs) (List.nodup_dedup xs)
      (by ext a; simp [List.mem_toFinset, mem_firstUniques, List.mem_dedup])
  rw [(hfu.map _).sum_eq]
  exact List.sum_map_count_dedup_eq_length xs

theorem length_valueCounts (xs : List V) :
    (valueCounts xs).length = (firstUniques xs).length := by
  rw [(perm_valueCounts xs).length_eq]
  exact List.length_map _ _

theorem valueCounts_eq_nil_iff (xs : List V) : valueCounts xs = [] ↔ xs = [] := by
  constructor
  · intro h
    cases xs with
    | nil => rfl
    | cons x t =>
      have h2 := length_valueCounts (x :: t)
      rw [h] at h2
      simp [firstUniques] at h2
  · rintro rfl; rfl

theorem abs_roundHE_sub (x : ℚ) : |(roundHE x : ℚ) - x| ≤ 1 / 2 := by
  have h1 : (⌊x⌋ : ℚ) ≤ x := Int.floor_le x
  have h2 : x < ⌊x⌋ + 1 := Int.lt_floor_add_one x
  unfold roundHE
  split_ifs with ha hb hc
  · rw [abs_le]; constructor <;> linarith
  · push_cast
    rw [abs_le]; constructor <;> linarith
  · rw [abs_le]; constructor <;> linarith
  · push_cast
    rw [abs_le]; constructor <;> linarith

theorem abs_roundTo_sub (d : Nat) (x : ℚ) : |roundTo d x - x| ≤ 1 / (2 * 10 ^ d) := by
  have hpos : (0:ℚ) < 10 ^ d := by positivity
  have h := abs_roundHE_sub (x * 10 ^ d)
  have heq : roundTo d x - x = ((roundHE (x * 10 ^ d) : ℚ) - x * 10 ^ d) / 10 ^ d := by
    unfold roundTo; field_simp; ring
  rw [heq, abs_div, abs_of_pos hpos,
    show (1:ℚ) / (2 * 10 ^ d) = (1 / 2) / 10 ^ d from by rw [div_div]]
  gcongr

theorem abs_sum_map_roundTo (d : Nat) : ∀ (l : List ℚ),
    |(l.map (roundTo d)).sum - l.sum| ≤ l.length * (1 / (2 * 10 ^ d))
  | [] => by simp
  | a :: t => by
    simp only [List.map_cons, List.sum_cons, List.length_cons]
    have h1 := abs_roundTo_sub d a
    have h2 := abs_sum_map_roundTo d t
    have h3 : roundTo d a + (t.map (roundTo d)).sum - (a + t.sum)
        = (roundTo d a - a) + ((t.map (roundTo d)).sum - t.sum) := by ring
    rw [h3]
    calc |(roundTo d a - a) + ((t.map (roundTo d)).sum - t.sum)|
        ≤ |roundTo d a - a| + |(t.map (roundTo d)).sum - t.sum| := abs_add _ _
      _ ≤ 1 / (2 * 10 ^ d) + t.length * (1 / (2 * 10 ^ d)) := add_le_add h1 h2
      _ = (↑(t.length + 1) : ℚ) * (1 / (2 * 10 ^ d)) := by push_cast; ring

theorem sum_map_div_mul (l : List (V × Nat)) (L c : ℚ) :
    (l.map (fun p => (p.2 : ℚ) / L * c)).sum = ((l.map (fun p => (p.2 : ℚ))).sum) / L * c := by
  induction l with
  | nil => simp
  | cons a t ih =>
    simp only [List.map_cons, List.sum_cons, ih]
    ring

theorem sum_pct_exact (xs : List V) (hne : xs ≠ []) :
    ((valueCounts xs).map (fun p => (p.2 : ℚ) / xs.length * 100)).sum = 100 := by
  have hL : (0:ℚ) < xs.length := by exact_mod_cast List.length_pos.mpr hne
  rw [sum_map_div_mul]
  have h2 : ((valueCounts xs).map (fun p => (p.2 : ℚ))).sum = (xs.length : ℚ) := by
    rw [show (fun p : V × Nat => (p.2 : ℚ)) = (fun n : Nat => (n : ℚ)) ∘ Prod.snd from rfl,
      ← List.map_map, ← Nat.cast_list_sum, sum_counts_valueCounts]
  rw [h2]
  field_simp

theorem cohortPct_map_snd (xs : List V) (d : Nat) :
    (cohortPct xs d).map Prod.snd
      = ((valueCounts xs).map (fun p => (p.2 : ℚ) / xs.length * 100)).map (roundTo d) := by
  unfold cohortPct pctSeries
  rw [List.map_map, List.map_map]
  rfl

theorem cohortPct_sum_close (xs : List V) (d : Nat) (hne : xs ≠ []) :
    |((cohortPct xs d).map Prod.snd).sum - 100|
      ≤ (valueCounts xs).length * (1 / (2 * 10 ^ d)) := by
  rw [cohortPct_map_snd]
  have h := abs_sum_map_roundTo d ((valueCounts xs).map (fun p => (p.2 : ℚ) / xs.length * 100))
  rw [sum_pct_exact xs hne, List.length_map] at h
  exact h

/-! ## Claim C1 -/

/-- C1, counterexample to the claim as stated: the normalizer replaces only
the space character, so the tab in the column name `"a\tb"` survives every
stage and the output still contains a whitespace character. -/
theorem C1_whitespace_counterexample :
    snakeName (strCodes "a\tb") = strCodes "a\tb" ∧
    (snakeName (strCodes "a\tb")).any isPySpace = true :=
  ⟨by decide, by decide⟩

/-- C1 as amended: for every input column name, the normalizer's output
contains no uppercase ASCII letter, no space character (only the space,
code 32, is converted — other whitespace such as a tab can remain), no two
consecutive underscores, and neither begins nor ends with an underscore. -/
theorem C1_snake_shape_amended (s : List Nat) :
    (∀ c ∈ snakeName s, isUpperC c = false) ∧
    (∀ c ∈ snakeName s, c ≠ 32) ∧
    NoDoubleUnder (snakeName s) ∧
    (snakeName s).head? ≠ some 95 ∧
    (snakeName s).getLast? ≠ some 95 :=
  ⟨snakeName_no_upper s, snakeName_no_space s, snakeName_noDouble s,
    snakeName_head s, snakeName_last s⟩

/-! ## Claim C3 -/

/-- C3: the normalizer is idempotent — renaming an already-renamed column
set is a no-op, and `snakeName (snakeName x) = snakeName x` for every
name `x`. -/
theorem C3_snake_idempotent :
    (∀ columns : List (List Nat),
      snake_columns_rename (snake_columns_rename columns) = snake_columns_rename columns) ∧
    (∀ s : List Nat, snakeName (snakeName s) = snakeName s) := by
  refine ⟨fun columns => ?_, snakeName_idem⟩
  unfold snake_columns_rename
  rw [List.map_map]
  exact List.map_congr_left (fun s _ => snakeName_idem s)

/-! ## Claim C7 -/

/-- C7: the normalizer maps `"CustomerID Churn"` to `"customer_id_churn"`:
the camel boundary between `r` and `I` gets a space, spaces become
underscores, everything is lowercased, and nothing is left to collapse or
strip. -/
theorem C7_example_rename :
    snakeName (strCodes "CustomerID Churn") = strCodes "customer_id_churn" := by
  decide

/-! ## Claim C5 -/

/-- C5: `category_graph` routes a column to the pie branch exactly when it
has at most 2 distinct values and to the bar branch exactly when it has 3 or
more (`if len(data[column].unique()) <= 2`). -/
theorem C5_pie_bar_routing (xs : List Cell) (nrow d : Nat) :
    chartIsPie (chartFor xs nrow d) = decide ((uniqueVals xs).length ≤ 2) ∧
    chartIsBar (chartFor xs nrow d) = decide (3 ≤ (uniqueVals xs).length) := by
  by_cases h : (uniqueVals xs).length ≤ 2
  · have h3 : ¬(3 ≤ (uniqueVals xs).length) := by omega
    simp [chartFor, chartIsPie, chartIsBar, h, h3]
  · have h3 : 3 ≤ (uniqueVals xs).length := by omega
    simp [chartFor, chartIsPie, chartIsBar, h, h3]

/-! ## Claim C9 -/

/-- C9: `nan_label` is dead configuration — every function of the
visualization module returns the same output under a configuration that
differs only in `nan_label`; no missing-value relabelling ever happens. -/
theorem C9_nan_label_unused (df : List (String × List V))
    (catCols numCols : List String) (cfg : PlotCfg V) (lbl : String) :
    category_graph df catCols ⟨cfg.target_col, cfg.churn_value, lbl, cfg.percent_decimals⟩
        = category_graph df catCols cfg ∧
    numeric_graph df numCols ⟨cfg.target_col, cfg.churn_value, lbl, cfg.percent_decimals⟩
        = numeric_graph df numCols cfg ∧
    category_graph_compare df catCols ⟨cfg.target_col, cfg.churn_value, lbl, cfg.percent_decimals⟩
        = category_graph_compare df catCols cfg ∧
    numeric_graph_compare df numCols ⟨cfg.target_col, cfg.churn_value, lbl, cfg.percent_decimals⟩
        = numeric_graph_compare df numCols cfg :=
  ⟨rfl, rfl, rfl, rfl⟩

/-! ## Claim C8 -/

theorem mapExcept_ok_length {α β : Type} (f : α → Except String β) :
    ∀ (l : List α) (ys : List β), mapExcept f l = Except.ok ys → ys.length = l.length
  | [], ys, h => by
    simp only [mapExcept, Except.ok.injEq] at h
    subst h
    rfl
  | a :: rest, ys, h => by
    simp only [mapExcept] at h
    split at h
    · exact absurd h (by simp)
    · split at h
      · exact absurd h (by simp)
      · rename_i b _ bs hbs
        simp only [Except.ok.injEq] at h
        rw [← h]
        simp only [List.length_cons, mapExcept_ok_length f rest bs hbs]

/-- C8: the grid has `ceil(n/2)` rows, the i-th chart sits in cell
`(i / 2, i % 2)`, and for odd `n` the last cell `(nrows-1, 1)` is switched
off while for even `n` nothing is hidden. -/
theorem C8_grid_layout (df : List (String × List Cell)) (columns : List String)
    (cfg : PlotCfg Cell) (g : CategoryGrid Cell)
    (h : category_graph df columns cfg = Except.ok g) :
    g.nrows = (columns.length + 1) / 2 ∧
    (columns.length ≤ 2 * g.nrows ∧ 2 * g.nrows ≤ columns.length + 1) ∧
    g.cells.length = columns.length ∧
    g.cells.map Prod.fst = (List.range columns.length).map (fun i => (i / 2, i % 2)) ∧
    (columns.length % 2 = 1 → g.hiddenCell = some (g.nrows - 1, 1)) ∧
    (columns.length % 2 = 0 → g.hiddenCell = none) := by
  simp only [category_graph] at h
  split at h
  · exact absurd h (by simp)
  · rename_i charts hcharts
    simp only [Except.ok.injEq] at h
    subst h
    have hlen : charts.length = columns.length := mapExcept_ok_length _ _ _ hcharts
    refine ⟨rfl, ⟨?_, ?_⟩, ?_, ?_, ?_, ?_⟩
    · show columns.length ≤ 2 * ((columns.length + 1) / 2)
      omega
    · show 2 * ((columns.length + 1) / 2) ≤ columns.length + 1
      omega
    · show (charts.enum.map (fun p => ((p.1 / 2, p.1 % 2), p.2))).length = columns.length
      rw [List.length_map, List.enum_length, hlen]
    · show (charts.enum.map _).map Prod.fst = _
      rw [List.map_map]
      have hcomp : (Prod.fst ∘ fun p : Nat × ChartK Cell => ((p.1 / 2, p.1 % 2), p.2))
          = (fun i => (i / 2, i % 2)) ∘ Prod.fst := rfl
      rw [hcomp, ← List.map_map, List.enum_map_fst, hlen]
    · intro hodd
      show (if columns.length % 2 ≠ 0 then _ else _) = _
      rw [if_pos (by omega)]
    · intro heven
      show (if columns.length % 2 ≠ 0 then _ else _) = _
      rw [if_neg (by omega)]

/-- C8 at a concrete input: three columns make a grid of 2 rows, the charts
occupy cells (0,0), (0,1), (1,0), and cell (1,1) is switched off. -/
theorem C8_grid_layout_witness :
    category_graph dfGrid ["a", "b", "c"] cfgDefault = Except.ok gridExample ∧
    gridExample.nrows = 2 ∧
    gridExample.hiddenCell = some (1, 1) :=
  ⟨by decide,
   (C8_grid_layout dfGrid ["a", "b", "c"] cfgDefault gridExample (by decide)).1,
   (C8_grid_layout dfGrid ["a", "b", "c"] cfgDefault gridExample
      (by decide)).2.2.2.2.1 (by decide)⟩

/-! ## Lemmas: the cohort-comparison pipeline on the concrete scenarios -/

theorem length_cohortPct (xs : List V) (d : Nat) :
    (cohortPct xs d).length = (valueCounts xs).length := List.length_map _ _

theorem cohortPct_scenario_churned :
    cohortPct (churnedValsOf rowsScenario cfgDefault) cfgDefault.percent_decimals
      = [(Cell.s "A", 100)] := by
  have h1 : valueCounts (churnedValsOf rowsScenario cfgDefault) = [(Cell.s "A", 2)] := by
    decide
  have h2 : (churnedValsOf rowsScenario cfgDefault).length = 2 := by decide
  unfold cohortPct
  rw [h1, h2]
  unfold pctSeries
  simp only [List.map_cons, List.map_nil, List.cons.injEq, Prod.mk.injEq]
  norm_num [roundTo, roundHE, cfgDefault]

theorem cohortPct_scenario_retained :
    cohortPct (retainedValsOf rowsScenario cfgDefault) cfgDefault.percent_decimals
      = [(Cell.s "B", 100)] := by
  have h1 : valueCounts (retainedValsOf rowsScenario cfgDefault) = [(Cell.s "B", 3)] := by
    decide
  have h2 : (retainedValsOf rowsScenario cfgDefault).length = 3 := by decide
  unfold cohortPct
  rw [h1, h2]
  unfold pctSeries
  simp only [List.map_cons, List.map_nil, List.cons.injEq, Prod.mk.injEq]
  norm_num [roundTo, roundHE, cfgDefault]

theorem comparePlotCol_scenario :
    comparePlotCol rowsScenario cfgDefault = Except.ok ⟨[Cell.s "A"], [100], [100], 1⟩ := by
  have hv : (valueCounts (retainedValsOf rowsScenario cfgDefault)).length = 1 := by decide
  simp only [comparePlotCol, cohortPct_scenario_churned, cohortPct_scenario_retained, hv]
  norm_num [broadcastLen, broadcastTo]

theorem category_compare_scenario :
    category_graph_compare dfScenario ["plan"] cfgDefault
      = Except.ok [⟨[Cell.s "A"], [100], [100], 1⟩] := by
  have h1 : colFor dfScenario cfgDefault.target_col
      = some [Cell.i 1, Cell.i 1, Cell.i 0, Cell.i 0, Cell.i 0] := by decide
  have h2 : colFor dfScenario "plan"
      = some [Cell.s "A", Cell.s "A", Cell.s "B", Cell.s "B", Cell.s "B"] := by decide
  have hzip : [Cell.i 1, Cell.i 1, Cell.i 0, Cell.i 0, Cell.i 0].zip
      [Cell.s "A", Cell.s "A", Cell.s "B", Cell.s "B", Cell.s "B"] = rowsScenario := by decide
  simp only [category_graph_compare, h1, mapExcept, h2, hzip, comparePlotCol_scenario]

theorem cohortPct_mismatch_churned :
    cohortPct (churnedValsOf rowsMismatch cfgDefault) cfgDefault.percent_decimals
      = [(Cell.s "A", 667 / 10), (Cell.s "B", 333 / 10)] := by
  have h1 : valueCounts (churnedValsOf rowsMismatch cfgDefault)
      = [(Cell.s "A", 2), (Cell.s "B", 1)] := by decide
  have h2 : (churnedValsOf rowsMismatch cfgDefault).length = 3 := by decide
  unfold cohortPct
  rw [h1, h2]
  unfold pctSeries
  simp only [List.map_cons, List.map_nil, List.cons.injEq, Prod.mk.injEq]
  norm_num [roundTo, roundHE, cfgDefault]

theorem cohortPct_mismatch_retained :
    cohortPct (retainedValsOf rowsMismatch cfgDefault) cfgDefault.percent_decimals
      = [(Cell.s "B", 75), (Cell.s "A", 25)] := by
  have h1 : valueCounts (retainedValsOf rowsMismatch cfgDefault)
      = [(Cell.s "B", 3), (Cell.s "A", 1)] := by decide
  have h2 : (retainedValsOf rowsMismatch cfgDefault).length = 4 := by decide
  unfold cohortPct
  rw [h1, h2]
  unfold pctSeries
  simp only [List.map_cons, List.map_nil, List.cons.injEq, Prod.mk.injEq]
  norm_num [roundTo, roundHE, cfgDefault]

theorem comparePlotCol_mismatch :
    comparePlotCol rowsMismatch cfgDefault = Except.ok plotMismatch := by
  have hv : (valueCounts (retainedValsOf rowsMismatch cfgDefault)).length = 2 := by decide
  simp only [comparePlotCol, cohortPct_mismatch_churned, cohortPct_mismatch_retained, hv]
  norm_num [broadcastLen, broadcastTo, plotMismatch]

/-! ## Claim C2 -/

theorem churned_retained_length (rows : List (Cell × Cell)) (cfg : PlotCfg Cell) :
    (churnedValsOf rows cfg).length + (retainedValsOf rows cfg).length = rows.length := by
  unfold churnedValsOf retainedValsOf
  rw [List.length_map, List.length_map, ← List.countP_eq_length_filter,
    ← List.countP_eq_length_filter,
    List.length_eq_countP_add_countP (fun r : Cell × Cell => decide (r.1 = cfg.churn_value))]
  simp only [decide_eq_true_eq]

theorem all_filter_self {α : Type} (l : List α) (p : α → Bool) :
    (l.filter p).all p = true := by
  rw [List.all_eq_true]
  intro x hx
  exact (List.mem_filter.mp hx).2

theorem cohortPct_count (xs : List V) (d : Nat) :
    (cohortPct xs d).all
      (fun q => decide (q.2 = roundTo d ((xs.count q.1 : ℚ) / xs.length * 100))) = true := by
  rw [List.all_eq_true]
  rintro ⟨v, pq⟩ hq
  simp only [decide_eq_true_eq]
  unfold cohortPct pctSeries at hq
  rcases List.mem_map.mp hq with ⟨⟨u, k⟩, hu, heq⟩
  simp only [Prod.mk.injEq] at heq
  obtain ⟨h1, h2⟩ := heq
  subst h1
  rw [← h2, count_of_mem_valueCounts hu]

/-- C2: `category_graph_compare` splits the rows into the cohort whose
target equals the churn value and its complement, computes each cohort's
value percentages with that cohort's own row count as denominator, and on
the frame target [1,1,0,0,0], plan [A,A,B,B,B] with the default
configuration the churned percentage of A is 100 while the retained series
is B: 100 with A absent — A occurs 0 times, a 0% frequency. -/
theorem C2_cohort_percentages (rows : List (Cell × Cell)) (cfg : PlotCfg Cell) :
    ((churnedValsOf rows cfg).length + (retainedValsOf rows cfg).length = rows.length ∧
     (rows.filter (fun r => decide (r.1 = cfg.churn_value))).all
        (fun r => decide (r.1 = cfg.churn_value)) = true ∧
     (rows.filter (fun r => decide (¬r.1 = cfg.churn_value))).all
        (fun r => decide (¬r.1 = cfg.churn_value)) = true ∧
     (cohortPct (churnedValsOf rows cfg) cfg.percent_decimals).all
        (fun q => decide (q.2 = roundTo cfg.percent_decimals
          (((churnedValsOf rows cfg).count q.1 : ℚ)
            / (churnedValsOf rows cfg).length * 100))) = true ∧
     (cohortPct (retainedValsOf rows cfg) cfg.percent_decimals).all
        (fun q => decide (q.2 = roundTo cfg.percent_decimals
          (((retainedValsOf rows cfg).count q.1 : ℚ)
            / (retainedValsOf rows cfg).length * 100))) = true) ∧
    (category_graph_compare dfScenario ["plan"] cfgDefault
        = Except.ok [⟨[Cell.s "A"], [100], [100], 1⟩] ∧
     cohortPct (churnedValsOf rowsScenario cfgDefault) 1 = [(Cell.s "A", 100)] ∧
     cohortPct (retainedValsOf rowsScenario cfgDefault) 1 = [(Cell.s "B", 100)] ∧
     (retainedValsOf rowsScenario cfgDefault).count (Cell.s "A") = 0 ∧
     ((retainedValsOf rowsScenario cfgDefault).count (Cell.s "A") : ℚ)
        / (retainedValsOf rowsScenario cfgDefault).length * 100 = 0) :=
  ⟨⟨churned_retained_length rows cfg, all_filter_self _ _, all_filter_self _ _,
    cohortPct_count _ _, cohortPct_count _ _⟩,
   category_compare_scenario, cohortPct_scenario_churned, cohortPct_scenario_retained,
   by decide,
   by rw [show (retainedValsOf rowsScenario cfgDefault).count (Cell.s "A") = 0 from by decide]
      norm_num⟩

/-! ## Claim C4 -/

/-- C4: within each cohort taken on its own, the rounded per-category
percentages sum to 100 up to half an ulp of the rounding grid per
category (the series has `(valueCounts cohort).length` entries, each
rounded to `percent_decimals` decimals). -/
theorem C4_pct_sum_tolerance (rows : List (Cell × Cell)) (cfg : PlotCfg Cell)
    (hc : churnedValsOf rows cfg ≠ []) (hr : retainedValsOf rows cfg ≠ []) :
    |((cohortPct (churnedValsOf rows cfg) cfg.percent_decimals).map Prod.snd).sum - 100|
        ≤ (valueCounts (churnedValsOf rows cfg)).length
          * (1 / (2 * 10 ^ cfg.percent_decimals)) ∧
    |((cohortPct (retainedValsOf rows cfg) cfg.percent_decimals).map Prod.snd).sum - 100|
        ≤ (valueCounts (retainedValsOf rows cfg)).length
          * (1 / (2 * 10 ^ cfg.percent_decimals)) :=
  ⟨cohortPct_sum_close _ _ hc, cohortPct_sum_close _ _ hr⟩

/-- C4 at a concrete input: churned plan [A,B,B], retained plan [C], both
cohorts non-empty, and both rounded percentage sums are within the stated
tolerance of 100. -/
theorem C4_pct_sum_tolerance_witness :
    churnedValsOf rowsTwoCohorts cfgDefault ≠ [] ∧
    retainedValsOf rowsTwoCohorts cfgDefault ≠ [] ∧
    (|((cohortPct (churnedValsOf rowsTwoCohorts cfgDefault)
          cfgDefault.percent_decimals).map Prod.snd).sum - 100|
        ≤ (valueCounts (churnedValsOf rowsTwoCohorts cfgDefault)).length
          * (1 / (2 * 10 ^ cfgDefault.percent_decimals)) ∧
     |((cohortPct (retainedValsOf rowsTwoCohorts cfgDefault)
          cfgDefault.percent_decimals).map Prod.snd).sum - 100|
        ≤ (valueCounts (retainedValsOf rowsTwoCohorts cfgDefault)).length
          * (1 / (2 * 10 ^ cfgDefault.percent_decimals))) :=
  ⟨by decide, by decide,
   C4_pct_sum_tolerance rowsTwoCohorts cfgDefault (by decide) (by decide)⟩

/-! ## Claim C6 -/

theorem broadcastTo_zero_of_short (l : List ℚ) (h : l.length ≤ 1) :
    broadcastTo l 0 = [] := by
  rcases l with _ | ⟨x, t⟩
  · rfl
  · rcases t with _ | ⟨y, t2⟩
    · unfold broadcastTo
      rw [if_neg (by simp)]
      rfl
    · simp at h

theorem comparePlotCol_churned_empty (rows : List (Cell × Cell)) (cfg : PlotCfg Cell)
    (h : churnedValsOf rows cfg = []) :
    comparePlotCol rows cfg =
      if 2 ≤ (valueCounts (retainedValsOf rows cfg)).length
      then Except.error "ValueError: shape mismatch"
      else Except.ok ⟨[], [], [], 0⟩ := by
  have hm := length_cohortPct (retainedValsOf rows cfg) cfg.percent_decimals
  simp only [comparePlotCol, h]
  rw [show cohortPct ([] : List Cell) cfg.percent_decimals = [] from rfl]
  simp only [List.length_nil]
  rw [hm]
  by_cases h2 : 2 ≤ (valueCounts (retainedValsOf rows cfg)).length
  · have hb : broadcastLen 0 ((valueCounts (retainedValsOf rows cfg)).length) = none := by
      unfold broadcastLen
      rw [if_neg (by omega), if_neg (by omega), if_neg (by omega)]
    rw [hb, if_pos h2]
  · have hle : (valueCounts (retainedValsOf rows cfg)).length ≤ 1 := by omega
    have hb : broadcastLen 0 ((valueCounts (retainedValsOf rows cfg)).length) = some 0 := by
      unfold broadcastLen
      interval_cases h3 : (valueCounts (retainedValsOf rows cfg)).length <;> simp
    rw [hb, if_neg h2]
    show (if min 0 0 ≤ _ then _ else _) = _
    rw [if_pos (by omega)]
    have hshort : ((cohortPct (retainedValsOf rows cfg) cfg.percent_decimals).map
        Prod.snd).length ≤ 1 := by
      rw [List.length_map, hm]; omega
    rw [show min 0 0 = 0 from rfl, broadcastTo_zero_of_short _ hshort]
    rfl

theorem comparePlotCol_retained_empty (rows : List (Cell × Cell)) (cfg : PlotCfg Cell)
    (h : retainedValsOf rows cfg = []) :
    comparePlotCol rows cfg =
      if 2 ≤ (valueCounts (churnedValsOf rows cfg)).length
      then Except.error "ValueError: shape mismatch"
      else Except.ok
        ⟨(cohortPct (churnedValsOf rows cfg) cfg.percent_decimals).map Prod.fst,
         (cohortPct (churnedValsOf rows cfg) cfg.percent_decimals).map Prod.snd, [], 0⟩ := by
  have hm := length_cohortPct (churnedValsOf rows cfg) cfg.percent_decimals
  simp only [comparePlotCol, h]
  rw [show cohortPct ([] : List Cell) cfg.percent_decimals = [] from rfl]
  rw [hm]
  simp only [List.length_nil, List.map_nil]
  by_cases h2 : 2 ≤ (valueCounts (churnedValsOf rows cfg)).length
  · have hb : broadcastLen ((valueCounts (churnedValsOf rows cfg)).length) 0 = none := by
      unfold broadcastLen
      rw [if_neg (by omega), if_neg (by omega), if_neg (by omega)]
    rw [hb, if_pos h2]
  · have hle : (valueCounts (churnedValsOf rows cfg)).length ≤ 1 := by omega
    have hb : broadcastLen ((valueCounts (churnedValsOf rows cfg)).length) 0 = some 0 := by
      unfold broadcastLen
      interval_cases h3 : (valueCounts (churnedValsOf rows cfg)).length <;> simp
    rw [hb, if_neg h2]
    show (if min _ 0 ≤ _ then _ else _) = _
    rw [if_pos (by omega)]
    rw [show broadcastTo ([] : List ℚ) 0 = [] from rfl, Nat.min_zero]

/-- C6 counterexample to the claim as stated: the churned cohort of this
frame is empty, yet `category_graph_compare` completes without any error —
the percentage computation over the empty cohort yields an empty series
(pandas performs no division over an empty `value_counts`), numpy
broadcasts the single retained bar against zero positions to zero bars, and
the labelling loop runs zero times. -/
theorem C6_no_failure_counterexample :
    churnedValsOf [(Cell.i 0, Cell.s "A")] cfgDefault = [] ∧
    category_graph_compare dfNoChurn ["plan"] cfgDefault
      = Except.ok [⟨[], [], [], 0⟩] :=
  ⟨by decide, by decide⟩

/-- C6 as amended: an empty cohort never makes the percentage computation
fail — it yields an empty percentage series.  The figure later fails, with
numpy's broadcast shape mismatch in `ax.bar` (not a division error), exactly
when the other cohort has at least 2 distinct values in the plotted
column; with at most 1 distinct value the whole figure succeeds. -/
theorem C6_empty_cohort_amended (rows : List (Cell × Cell)) (cfg : PlotCfg Cell) :
    (churnedValsOf rows cfg = [] →
      cohortPct (churnedValsOf rows cfg) cfg.percent_decimals = [] ∧
      (2 ≤ (valueCounts (retainedValsOf rows cfg)).length →
        comparePlotCol rows cfg = Except.error "ValueError: shape mismatch") ∧
      ((valueCounts (retainedValsOf rows cfg)).length ≤ 1 →
        comparePlotCol rows cfg = Except.ok ⟨[], [], [], 0⟩)) ∧
    (retainedValsOf rows cfg = [] →
      cohortPct (retainedValsOf rows cfg) cfg.percent_decimals = [] ∧
      (2 ≤ (valueCounts (churnedValsOf rows cfg)).length →
        comparePlotCol rows cfg = Except.error "ValueError: shape mismatch") ∧
      ((valueCounts (churnedValsOf rows cfg)).length ≤ 1 →
        comparePlotCol rows cfg = Except.ok
          ⟨(cohortPct (churnedValsOf rows cfg) cfg.percent_decimals).map Prod.fst,
           (cohortPct (churnedValsOf rows cfg) cfg.percent_decimals).map Prod.snd,
           [], 0⟩)) := by
  constructor
  · intro h
    refine ⟨by rw [h]; rfl, ?_, ?_⟩
    · intro h2
      rw [comparePlotCol_churned_empty rows cfg h, if_pos h2]
    · intro h1
      rw [comparePlotCol_churned_empty rows cfg h, if_neg (by omega)]
  · intro h
    refine ⟨by rw [h]; rfl, ?_, ?_⟩
    · intro h2
      rw [comparePlotCol_retained_empty rows cfg h, if_pos h2]
    · intro h1
      rw [comparePlotCol_retained_empty rows cfg h, if_neg (by omega)]

/-- C6's amended behaviour at a concrete input: churned cohort empty and two
distinct retained values make the `ax.bar` broadcast fail. -/
theorem C6_empty_cohort_amended_witness :
    churnedValsOf rowsEmptyChurn cfgDefault = [] ∧
    2 ≤ (valueCounts (retainedValsOf rowsEmptyChurn cfgDefault)).length ∧
    comparePlotCol rowsEmptyChurn cfgDefault
      = Except.error "ValueError: shape mismatch" :=
  ⟨by decide, by decide,
   ((C6_empty_cohort_amended rowsEmptyChurn cfgDefault).1 (by decide)).2.1 (by decide)⟩

/-! ## Claim C10 -/

/-- C10: under a successful run the tick labels are exactly the churned
series' keys; when the series have equal length the retained bar heights
follow the retained series' own order; the labelling loop never exceeds
the churned series, and a longer retained series is truncated to it.  On
the mismatch frame (churned order A,B; retained order B,A) the bar at
position 0 — whose tick reads A — shows 75, the retained share of B,
while the retained share of A is 25. -/
theorem C10_bar_tick_mismatch (rows : List (Cell × Cell)) (cfg : PlotCfg Cell)
    (plot : ComparePlot Cell) (h : comparePlotCol rows cfg = Except.ok plot) :
    (plot.xticklabels
        = (cohortPct (churnedValsOf rows cfg) cfg.percent_decimals).map Prod.fst ∧
     ((cohortPct (retainedValsOf rows cfg) cfg.percent_decimals).length
          = (cohortPct (churnedValsOf rows cfg) cfg.percent_decimals).length →
       plot.bars2Heights
          = (cohortPct (retainedValsOf rows cfg) cfg.percent_decimals).map Prod.snd) ∧
     plot.labelCount ≤ (cohortPct (churnedValsOf rows cfg) cfg.percent_decimals).length ∧
     ((cohortPct (churnedValsOf rows cfg) cfg.percent_decimals).length
          < (cohortPct (retainedValsOf rows cfg) cfg.percent_decimals).length →
       plot.labelCount
          = (cohortPct (churnedValsOf rows cfg) cfg.percent_decimals).length)) ∧
    (comparePlotCol rowsMismatch cfgDefault = Except.ok plotMismatch ∧
     plotMismatch.xticklabels.head? = some (Cell.s "A") ∧
     plotMismatch.bars2Heights.head? = some 75 ∧
     cohortPct (retainedValsOf rowsMismatch cfgDefault) 1
        = [(Cell.s "B", 75), (Cell.s "A", 25)] ∧
     (75 : ℚ) ≠ 25) := by
  refine ⟨?_, comparePlotCol_mismatch, rfl, rfl, cohortPct_mismatch_retained, by norm_num⟩
  simp only [comparePlotCol] at h
  split at h
  · exact absurd h (by simp)
  · rename_i len2 hlen2
    split at h
    · rename_i hzl
      simp only [Except.ok.injEq] at h
      subst h
      refine ⟨rfl, ?_, ?_, ?_⟩
      · intro heq
        have hl2 : len2 = (cohortPct (churnedValsOf rows cfg) cfg.percent_decimals).length := by
          unfold broadcastLen at hlen2
          rw [heq, if_pos rfl] at hlen2
          exact (Option.some.injEq _ _ ▸ hlen2).symm
        show broadcastTo _ len2 = _
        rw [hl2]
        unfold broadcastTo
        rw [if_pos (by rw [List.length_map, heq])]
      · exact min_le_left _ _
      · intro hlt
        show min (cohortPct (churnedValsOf rows cfg) cfg.percent_decimals).length len2
            = (cohortPct (churnedValsOf rows cfg) cfg.percent_decimals).length
        unfold broadcastLen at hlen2
        split_ifs at hlen2 with hnm hn1 hm1
        · exact absurd hnm (by omega)
        · have hlen2a : len2
              = (cohortPct (retainedValsOf rows cfg) cfg.percent_decimals).length :=
            (Option.some.injEq _ _ ▸ hlen2).symm
          rw [hn1] at hlt ⊢
          rw [hlen2a, Nat.min_def, if_pos (by omega)]
        · have hlen2a : len2
              = (cohortPct (churnedValsOf rows cfg) cfg.percent_decimals).length :=
            (Option.some.injEq _ _ ▸ hlen2).symm
          rw [hlen2a]
          exact Nat.min_self _
    · exact absurd h (by simp)

/-- C10 at the concrete mismatch input: the run succeeds, the first tick
label reads A while the first retained bar height is B's 75 percent. -/
theorem C10_bar_tick_mismatch_witness :
    comparePlotCol rowsMismatch cfgDefault = Except.ok plotMismatch ∧
    plotMismatch.xticklabels.head? = some (Cell.s "A") ∧
    plotMismatch.bars2Heights.head? = some 75 :=
  ⟨comparePlotCol_mismatch,
   (C10_bar_tick_mismatch rowsMismatch cfgDefault plotMismatch comparePlotCol_mismatch).2.2.1,
   (C10_bar_tick_mismatch rowsMismatch cfgDefault plotMismatch
      comparePlotCol_mismatch).2.2.2.1⟩

end ChurnEDA
